import Mathlib

/-!
Verification of the node dependency service of `plugin-dependency`
(`src/plugin-dependency/services/node.go`), a plugin that catalogues
npm packages installed across a fleet of nodes, searches the upstream
npms.io registry, and runs install/uninstall commands on a node.

The Go code is embedded shallowly: the argument-list construction of
`InstallDependencies` / `UninstallDependencies` becomes a pure function
on the parameter record, `GetRepoList` becomes a function of the query,
the pagination, an oracle for the upstream registry and the stored
inventory records, and the MongoDB aggregation pipeline of
`GetRepoList` is given its standard group-by semantics over a list of
stored records.
-/

namespace NodeService

/-- Parameters of an install task, as used by
`NodeService.InstallDependencies` (fields read at node.go:182-202). -/
structure InstallParams where
  cmd : String
  names : List String
  proxy : String
  upgrade : Bool
  useConfig : Bool
  deriving Repr, DecidableEq

/-- Parameters of an uninstall task, as used by
`NodeService.UninstallDependencies` (fields read at node.go:229-234). -/
structure UninstallParams where
  cmd : String
  names : List String
  deriving Repr, DecidableEq

/-- The argument list built by `NodeService.InstallDependencies`
(node.go:171-199): `install`, `-g`, then `--registry <proxy>` when a
proxy is set, then (unless `useConfig`) each package name, suffixed
with `@latest` when `upgrade` is set. -/
def installArgs (p : InstallParams) : List String :=
  let args : List String := ["install", "-g"]
  let args := if p.proxy ≠ "" then args ++ ["--registry", p.proxy] else args
  if p.useConfig then
    args
  else
    args ++ p.names.map (fun depName => if p.upgrade then depName ++ "@latest" else depName)

/-- The argument list built by `NodeService.UninstallDependencies`
(node.go:220-231): `uninstall`, `-g`, then each name verbatim. -/
def uninstallArgs (p : UninstallParams) : List String :=
  ["uninstall", "-g"] ++ p.names

/-- The ecosystem tag `constants.DependencyTypeNode` used by the service;
the claims only compare it for equality, its literal value never matters. -/
def dependencyTypeNode : String := "node"

/-- One stored inventory record, the persisted catalogue row of the data
model: node id, package name, ecosystem tag and installed version. -/
structure InventoryRecord where
  nodeId : String
  name : String
  typ : String
  version : String
  deriving Repr, DecidableEq

/-- One entry of the aggregation output (`entity.DependencyResult`):
a package name, the node ids that contributed it, and its distinct
versions across those nodes. -/
structure DependencyResult where
  name : String
  nodeIds : List String
  versions : List String
  deriving Repr, DecidableEq

/-- The `$match` stage of the pipeline at node.go:98-106: records of the
node type whose name is among the queried names. -/
def matchedRecords (names : List String) (store : List InventoryRecord) :
    List InventoryRecord :=
  store.filter (fun r => r.typ = dependencyTypeNode ∧ r.name ∈ names)

/-- The aggregation pipeline of `GetRepoList` (node.go:97-127), given its
standard group-by semantics over a list of stored records: `$match` on
type and queried names, then `$group` by name with node_ids collected by
a push and versions by an addToSet (so versions are distinct). -/
def aggregateByName (names : List String) (store : List InventoryRecord) :
    List DependencyResult :=
  let matched := matchedRecords names store
  ((matched.map (fun r => r.name)).dedup).map (fun n =>
    { name := n
      nodeIds := (matched.filter (fun r => r.name = n)).map (fun r => r.nodeId)
      versions := ((matched.filter (fun r => r.name = n)).map (fun r => r.version)).dedup })

end NodeService

namespace NodeService

theorem mem_matchedRecords (names : List String) (store : List InventoryRecord)
    (r : InventoryRecord) :
    r ∈ matchedRecords names store ↔
      r ∈ store ∧ r.typ = dependencyTypeNode ∧ r.name ∈ names := by
  simp [matchedRecords, List.mem_filter]

theorem mem_aggregateByName (names : List String) (store : List InventoryRecord)
    (e : DependencyResult) :
    e ∈ aggregateByName names store ↔
      ∃ n, (∃ r ∈ matchedRecords names store, r.name = n) ∧
        e = { name := n
              nodeIds := ((matchedRecords names store).filter
                (fun r => r.name = n)).map (fun r => r.nodeId)
              versions := (((matchedRecords names store).filter
                (fun r => r.name = n)).map (fun r => r.version)).dedup } := by
  simp only [aggregateByName, List.mem_map, List.mem_dedup]
  constructor
  · rintro ⟨n, hn, he⟩
    exact ⟨n, hn, he.symm⟩
  · rintro ⟨n, hn, he⟩
    exact ⟨n, hn, he.symm⟩

end NodeService

/-- C2: the name-grouped aggregation returns an entry exactly for the
queried names that have a stored node-type record; every entry has a
non-empty contributing node-id list equal to the node ids holding a
record for that name, and its versions are the distinct stored versions
for that name. -/
theorem aggregateByName_spec (names : List String)
    (store : List NodeService.InventoryRecord) :
    (∀ n, (∃ e ∈ NodeService.aggregateByName names store, e.name = n) ↔
        (n ∈ names ∧ ∃ r ∈ store,
          r.typ = NodeService.dependencyTypeNode ∧ r.name = n)) ∧
    (∀ e ∈ NodeService.aggregateByName names store,
      e.nodeIds ≠ [] ∧
      (∀ nid, nid ∈ e.nodeIds ↔ ∃ r ∈ store,
        r.typ = NodeService.dependencyTypeNode ∧ r.name = e.name ∧ r.nodeId = nid) ∧
      (∀ v, v ∈ e.versions ↔ ∃ r ∈ store,
        r.typ = NodeService.dependencyTypeNode ∧ r.name = e.name ∧ r.version = v)) := by
  constructor
  · intro n
    constructor
    · rintro ⟨e, he, hname⟩
      rw [NodeService.mem_aggregateByName] at he
      obtain ⟨n', ⟨r, hr, hrn⟩, hee⟩ := he
      subst hee
      simp only at hname
      subst hname
      rw [NodeService.mem_matchedRecords] at hr
      exact ⟨hrn ▸ hr.2.2, r, hr.1, hr.2.1, hrn⟩
    · rintro ⟨hn, r, hr, htyp, hname⟩
      refine ⟨_, (NodeService.mem_aggregateByName names store _).mpr
        ⟨n, ⟨r, ?_, hname⟩, rfl⟩, rfl⟩
      rw [NodeService.mem_matchedRecords]
      exact ⟨hr, htyp, hname ▸ hn⟩
  · intro e he
    rw [NodeService.mem_aggregateByName] at he
    obtain ⟨n, ⟨r0, hr0, hr0n⟩, hee⟩ := he
    subst hee
    have hr0m := (NodeService.mem_matchedRecords names store r0).mp hr0
    have hnin : n ∈ names := hr0n ▸ hr0m.2.2
    refine ⟨?_, ?_, ?_⟩
    · intro hnil
      have : r0.nodeId ∈ ((NodeService.matchedRecords names store).filter
          (fun r => r.name = n)).map (fun r => r.nodeId) := by
        simp only [List.mem_map, List.mem_filter]
        exact ⟨r0, ⟨hr0, by simp [hr0n]⟩, rfl⟩
      simp only at hnil
      rw [hnil] at this
      exact absurd this (List.not_mem_nil _)
    · intro nid
      simp only [List.mem_map, List.mem_filter, NodeService.mem_matchedRecords,
        decide_eq_true_eq]
      constructor
      · rintro ⟨r, ⟨⟨hrs, hrt, _⟩, hrn⟩, hrid⟩
        exact ⟨r, hrs, hrt, hrn, hrid⟩
      · rintro ⟨r, hrs, hrt, hrn, hrid⟩
        exact ⟨r, ⟨⟨hrs, hrt, hrn ▸ hnin⟩, hrn⟩, hrid⟩
    · intro v
      simp only [List.mem_dedup, List.mem_map, List.mem_filter,
        NodeService.mem_matchedRecords, decide_eq_true_eq]
      constructor
      · rintro ⟨r, ⟨⟨hrs, hrt, _⟩, hrn⟩, hrv⟩
        exact ⟨r, hrs, hrt, hrn, hrv⟩
      · rintro ⟨r, hrs, hrt, hrn, hrv⟩
        exact ⟨r, ⟨⟨hrs, hrt, hrn ▸ hnin⟩, hrn⟩, hrv⟩

/-- Witness for C2: with one stored lodash record on node1, the aggregation
has a lodash entry. -/
theorem aggregateByName_spec_witness :
    ∃ e ∈ NodeService.aggregateByName ["lodash"]
        [{ nodeId := "node1", name := "lodash", typ := "node", version := "4.17.20" }],
      e.name = "lodash" := by
  refine (aggregateByName_spec ["lodash"]
    [{ nodeId := "node1", name := "lodash", typ := "node", version := "4.17.20" }]).1
      "lodash" |>.mpr ⟨by decide, ?_⟩
  exact ⟨{ nodeId := "node1", name := "lodash", typ := "node", version := "4.17.20" },
    by simp, by decide, rfl⟩

/-- C1: with a non-empty name list and `useConfig` off, the install argument
list is exactly `install -g`, the proxy flags when a proxy is set, then the
names in input order, each only suffixed with `@latest` when upgrading. -/
theorem installArgs_structure (p : NodeService.InstallParams)
    (hn : p.names ≠ []) (hc : p.useConfig = false) :
    NodeService.installArgs p =
      ["install", "-g"]
        ++ (if p.proxy ≠ "" then ["--registry", p.proxy] else [])
        ++ p.names.map (fun n => if p.upgrade then n ++ "@latest" else n) := by
  unfold NodeService.installArgs
  rw [hc]
  by_cases hp : p.proxy = "" <;> simp [hp]

/-- Witness for C1 at a concrete parameter set. -/
theorem installArgs_structure_witness :
    NodeService.installArgs
        { cmd := "npm", names := ["lodash", "react"], proxy := "https://proxy",
          upgrade := true, useConfig := false } =
      ["install", "-g", "--registry", "https://proxy", "lodash@latest", "react@latest"] := by
  have h := installArgs_structure
    { cmd := "npm", names := ["lodash", "react"], proxy := "https://proxy",
      upgrade := true, useConfig := false } (by decide) rfl
  simpa using h

/-- C6: with `useConfig` on, no package name is appended, whatever the
name list and the upgrade flag are. -/
theorem installArgs_useConfig (p : NodeService.InstallParams)
    (hc : p.useConfig = true) :
    NodeService.installArgs p =
      ["install", "-g"] ++ (if p.proxy ≠ "" then ["--registry", p.proxy] else []) := by
  unfold NodeService.installArgs
  rw [hc]
  by_cases hp : p.proxy = "" <;> simp [hp]

/-- Witness for C6 at a concrete parameter set. -/
theorem installArgs_useConfig_witness :
    NodeService.installArgs
        { cmd := "npm", names := ["lodash"], proxy := "", upgrade := true,
          useConfig := true } = ["install", "-g"] := by
  have h := installArgs_useConfig
    { cmd := "npm", names := ["lodash"], proxy := "", upgrade := true,
      useConfig := true } rfl
  simpa using h

/-- C10: with `useConfig` on and a proxy set, the argument list is exactly
`install -g --registry <proxy>` - the proxy branch is independent of the
use-config branch. -/
theorem installArgs_useConfig_proxy (p : NodeService.InstallParams)
    (hc : p.useConfig = true) (hp : p.proxy ≠ "") :
    NodeService.installArgs p = ["install", "-g", "--registry", p.proxy] := by
  unfold NodeService.installArgs
  rw [hc]
  simp [hp]

/-- Witness for C10 at a concrete parameter set. -/
theorem installArgs_useConfig_proxy_witness :
    NodeService.installArgs
        { cmd := "npm", names := ["lodash"], proxy := "https://proxy",
          upgrade := false, useConfig := true } =
      ["install", "-g", "--registry", "https://proxy"] := by
  exact installArgs_useConfig_proxy
    { cmd := "npm", names := ["lodash"], proxy := "https://proxy",
      upgrade := false, useConfig := true } rfl (by decide)

/-- C7: the uninstall argument list is exactly `uninstall`, `-g`, then each
name verbatim in input order, with no proxy, upgrade or config branch. -/
theorem uninstallArgs_structure (p : NodeService.UninstallParams) :
    NodeService.uninstallArgs p = ["uninstall", "-g"] ++ p.names := rfl

namespace NodeService

/-- One search result item of the npms.io response
(`entity.NpmResponseList`): a package with its name and latest version. -/
structure NpmPackage where
  name : String
  version : String
  deriving Repr, DecidableEq

/-- One element of the results array of the npms.io search response. -/
structure NpmResult where
  package : NpmPackage
  deriving Repr, DecidableEq

/-- The decoded npms.io search response: total match count and the
results of the requested page. -/
structure NpmResponseList where
  total : Int
  results : List NpmResult
  deriving Repr, DecidableEq

/-- Pagination as read by `controllers.MustGetPagination` (Go ints). -/
structure Pagination where
  page : Int
  size : Int
  deriving Repr, DecidableEq

/-- The query parameters of the search URL built at node.go:53:
`from`, `q` and `size` of
`https://api.npms.io/v2/search?from=%d&q=%s&size=20` with
`from = (pagination.Page-1)*pagination.Size`; the `size` parameter is
the literal 20 of the format string. -/
structure SearchRequest where
  q : String
  fromOffset : Int
  size : Int
  deriving Repr, DecidableEq

/-- Builds the search request `GetRepoList` issues for a query and a
pagination (node.go:53). -/
def searchRequestOf (query : String) (pg : Pagination) : SearchRequest :=
  { q := query, fromOffset := (pg.page - 1) * pg.size, size := 20 }

/-- Outcome of the upstream registry call as `GetRepoList` observes it:
either a decoded response or a failure (network error, non-2xx status
or undecodable body, node.go:56-72). -/
inductive RegistryOutcome where
  | ok (res : NpmResponseList)
  | err (msg : String)
  deriving Repr, DecidableEq

/-- A catalogue dependency (`models.Dependency`) as built by this
service; Go zero values become defaults, the absent aggregation result
becomes `none`. -/
structure Dependency where
  name : String
  version : String := ""
  latestVersion : String := ""
  typ : String := ""
  result : Option DependencyResult := none
  deriving Repr, DecidableEq

/-- The HTTP outcome of `GetRepoList`: bad request on an empty query,
internal error on registry or store failure, bare success when total
is zero, or the annotated dependency list with the upstream total. -/
inductive RepoListResult where
  | badRequest (msg : String)
  | internalError (msg : String)
  | successEmpty
  | successList (deps : List Dependency) (total : Int)
  deriving Repr, DecidableEq

/-- Lookup in the Go map built at node.go:134-137; a later entry for the
same name overwrites an earlier one, hence the find on the reversed
list. -/
def depsResultsMapLookup (drs : List DependencyResult) (n : String) :
    Option DependencyResult :=
  drs.reverse.find? (fun dr => dr.name = n)

/-- The loop at node.go:140-145: each dependency gets the aggregation
entry of its name when the map holds one, and is left untouched
otherwise. -/
def attachResults (deps : List Dependency) (drs : List DependencyResult) :
    List Dependency :=
  deps.map (fun d =>
    match depsResultsMapLookup drs d.name with
    | some dr => { d with result := some dr }
    | none => d)

/-- `NodeService.GetRepoList` (node.go:32-148) as a function of the
query, the pagination, an oracle for the upstream registry and the
stored inventory records. The second component counts registry calls.
Store failure (node.go:128-131) is not modelled: the store is a pure
list, and no claim concerns it. -/
def getRepoList (query : String) (pg : Pagination)
    (registry : SearchRequest → RegistryOutcome)
    (store : List InventoryRecord) : RepoListResult × Nat :=
  if query = "" then
    (.badRequest "empty query", 0)
  else
    match registry (searchRequestOf query pg) with
    | .err m => (.internalError m, 1)
    | .ok npmRes =>
      if npmRes.total = 0 then
        (.successEmpty, 1)
      else
        let deps : List Dependency := npmRes.results.map (fun r =>
          { name := r.package.name, latestVersion := r.package.version })
        let depNames := deps.map (fun d => d.name)
        (.successList (attachResults deps (aggregateByName depNames store))
          npmRes.total, 1)

/-- The fixed argument list of the inventory scan at node.go:151:
`cmd.exec.Command(params.Cmd, "list", "-g", "--json", "--depth", "0")`. -/
def listArgs : List String := ["list", "-g", "--json", "--depth", "0"]

/-- One value of the dependencies object of `npm list --json` output
(`entity.NpmListResult`). -/
structure NpmListPackage where
  version : String
  deriving Repr, DecidableEq

/-- The decoded `npm list --json` output: the dependencies object as
name-package pairs. -/
structure NpmListResult where
  dependencies : List (String × NpmListPackage)
  deriving Repr, DecidableEq

/-- Outcome of running the package manager: its captured standard
output, or a failure (spawn error or non-zero exit, as surfaced by
`cmd.Output()`). -/
inductive ExecResult where
  | ok (output : String)
  | err (msg : String)
  deriving Repr, DecidableEq

/-- `NodeService.GetDependencies` (node.go:150-169) as a function of a
process runner and a JSON decoder: run `<cmd> list -g --json --depth 0`,
fail on a run failure, fail on undecodable output, else one dependency
per entry of the dependencies object, tagged with the node type. -/
def getDependencies (run : String → List String → ExecResult)
    (decodeList : String → Option NpmListResult) (cmdPath : String) :
    Except String (List Dependency) :=
  match run cmdPath listArgs with
  | .err m => .error m
  | .ok data =>
    match decodeList data with
    | none => .error "json unmarshal failure"
    | some res => .ok (res.dependencies.map (fun np =>
        { name := np.1, version := np.2.version, typ := dependencyTypeNode }))

end NodeService

namespace NodeService

theorem depsResultsMapLookup_isSome (drs : List DependencyResult) (n : String) :
    (depsResultsMapLookup drs n).isSome ↔ ∃ e ∈ drs, e.name = n := by
  simp [depsResultsMapLookup, List.find?_isSome]

theorem attachResults_map_name (deps : List Dependency) (drs : List DependencyResult) :
    (attachResults deps drs).map (fun d => d.name) = deps.map (fun d => d.name) := by
  unfold attachResults
  rw [List.map_map]
  have h : ((fun d : Dependency => d.name) ∘ fun d =>
      match depsResultsMapLookup drs d.name with
      | some dr => { d with result := some dr }
      | none => d) = fun d : Dependency => d.name := by
    funext d
    simp only [Function.comp]
    cases depsResultsMapLookup drs d.name <;> rfl
  rw [h]

theorem attachResults_map_latestVersion (deps : List Dependency)
    (drs : List DependencyResult) :
    (attachResults deps drs).map (fun d => d.latestVersion) =
      deps.map (fun d => d.latestVersion) := by
  unfold attachResults
  rw [List.map_map]
  have h : ((fun d : Dependency => d.latestVersion) ∘ fun d =>
      match depsResultsMapLookup drs d.name with
      | some dr => { d with result := some dr }
      | none => d) = fun d : Dependency => d.latestVersion := by
    funext d
    simp only [Function.comp]
    cases depsResultsMapLookup drs d.name <;> rfl
  rw [h]

theorem attachResults_result (deps : List Dependency) (drs : List DependencyResult)
    (h0 : ∀ d0 ∈ deps, d0.result = none) :
    ∀ d ∈ attachResults deps drs, d.result = depsResultsMapLookup drs d.name := by
  intro d hd
  unfold attachResults at hd
  rw [List.mem_map] at hd
  obtain ⟨d0, hd0, rfl⟩ := hd
  cases hcase : depsResultsMapLookup drs d0.name with
  | some dr => simp [hcase]
  | none => simp [hcase, h0 d0 hd0]

end NodeService

/-- C3: for the empty query, `GetRepoList` answers bad request and never
calls the upstream registry. -/
theorem getRepoList_emptyQuery (pg : NodeService.Pagination)
    (registry : NodeService.SearchRequest → NodeService.RegistryOutcome)
    (store : List NodeService.InventoryRecord) :
    NodeService.getRepoList "" pg registry store =
      (.badRequest "empty query", 0) := rfl

/-- C8: a successful upstream response with total zero yields the bare
success answer, not an error. -/
theorem getRepoList_zeroTotal (query : String) (pg : NodeService.Pagination)
    (registry : NodeService.SearchRequest → NodeService.RegistryOutcome)
    (store : List NodeService.InventoryRecord) (npmRes : NodeService.NpmResponseList)
    (hq : query ≠ "")
    (hr : registry (NodeService.searchRequestOf query pg) = .ok npmRes)
    (ht : npmRes.total = 0) :
    NodeService.getRepoList query pg registry store = (.successEmpty, 1) := by
  unfold NodeService.getRepoList
  rw [if_neg hq, hr]
  simp only [if_pos ht]

/-- Witness for C8: a query with an upstream total of zero. -/
theorem getRepoList_zeroTotal_witness :
    NodeService.getRepoList "lodash" { page := 1, size := 20 }
      (fun _ => .ok { total := 0, results := [] }) [] = (.successEmpty, 1) :=
  getRepoList_zeroTotal "lodash" { page := 1, size := 20 }
    (fun _ => .ok { total := 0, results := [] }) []
    { total := 0, results := [] } (by decide) rfl rfl

/-- C9 counterexample: with pageSize 5 the issued request's size parameter
is the hard-coded 20, not 5. -/
theorem searchRequest_size_not_pageSize :
    ¬ ((NodeService.searchRequestOf "lodash" { page := 1, size := 5 }).size = 5) := by
  decide

/-- C9 amended: the request `GetRepoList` issues carries offset
`(page-1)*pageSize`, but its size parameter is the fixed literal 20
whatever the pageSize; the output depends on the registry only through
that one request. -/
theorem searchRequest_offset_and_fixed_size (query : String)
    (pg : NodeService.Pagination)
    (registry registry2 : NodeService.SearchRequest → NodeService.RegistryOutcome)
    (store : List NodeService.InventoryRecord)
    (h : registry (NodeService.searchRequestOf query pg) =
      registry2 (NodeService.searchRequestOf query pg)) :
    (NodeService.searchRequestOf query pg).fromOffset = (pg.page - 1) * pg.size ∧
    (NodeService.searchRequestOf query pg).size = 20 ∧
    NodeService.getRepoList query pg registry store =
      NodeService.getRepoList query pg registry2 store := by
  refine ⟨rfl, rfl, ?_⟩
  unfold NodeService.getRepoList
  by_cases hq : query = ""
  · simp [hq]
  · rw [if_neg hq, if_neg hq, h]

/-- Witness for C9 amended at page 3, pageSize 10. -/
theorem searchRequest_offset_and_fixed_size_witness :
    (NodeService.searchRequestOf "lodash" { page := 3, size := 10 }).fromOffset =
      (3 - 1) * 10 ∧
    (NodeService.searchRequestOf "lodash" { page := 3, size := 10 }).size = 20 ∧
    NodeService.getRepoList "lodash" { page := 3, size := 10 }
        (fun _ => .err "down") [] =
      NodeService.getRepoList "lodash" { page := 3, size := 10 }
        (fun _ => .err "down") [] :=
  searchRequest_offset_and_fixed_size "lodash" { page := 3, size := 10 }
    (fun _ => .err "down") (fun _ => .err "down") [] rfl

/-- C4: on a successful search with nonzero total, `GetRepoList` returns
the dependency list in the upstream result order, each entry carrying the
upstream name and latest version, with the aggregation entry of its name
attached exactly when one exists; the answer is determined by the decoded
upstream response. -/
theorem getRepoList_success_order (query : String) (pg : NodeService.Pagination)
    (registry : NodeService.SearchRequest → NodeService.RegistryOutcome)
    (store : List NodeService.InventoryRecord) (npmRes : NodeService.NpmResponseList)
    (hq : query ≠ "")
    (hr : registry (NodeService.searchRequestOf query pg) = .ok npmRes)
    (ht : ¬ npmRes.total = 0) :
    ∃ deps, (NodeService.getRepoList query pg registry store).1 =
        .successList deps npmRes.total ∧
      deps.map (fun d => d.name) = npmRes.results.map (fun r => r.package.name) ∧
      deps.map (fun d => d.latestVersion) =
        npmRes.results.map (fun r => r.package.version) ∧
      (∀ d ∈ deps,
        d.result = NodeService.depsResultsMapLookup
          (NodeService.aggregateByName
            (npmRes.results.map (fun r => r.package.name)) store) d.name ∧
        (d.result.isSome ↔ ∃ e ∈ NodeService.aggregateByName
            (npmRes.results.map (fun r => r.package.name)) store,
          e.name = d.name)) := by
  unfold NodeService.getRepoList
  rw [if_neg hq, hr]
  simp only [if_neg ht]
  set deps0 : List NodeService.Dependency := npmRes.results.map (fun r =>
    { name := r.package.name, latestVersion := r.package.version }) with hdeps0
  have hnames : deps0.map (fun d => d.name) =
      npmRes.results.map (fun r => r.package.name) := by
    rw [hdeps0, List.map_map]
    rfl
  have hversions : deps0.map (fun d => d.latestVersion) =
      npmRes.results.map (fun r => r.package.version) := by
    rw [hdeps0, List.map_map]
    rfl
  have h0 : ∀ d0 ∈ deps0, d0.result = none := by
    intro d0 hd0
    rw [hdeps0, List.mem_map] at hd0
    obtain ⟨r, _, rfl⟩ := hd0
    rfl
  refine ⟨_, rfl, ?_, ?_, ?_⟩
  · rw [NodeService.attachResults_map_name, hnames]
  · rw [NodeService.attachResults_map_latestVersion, hversions]
  · intro d hd
    rw [hnames] at hd
    have hres := NodeService.attachResults_result deps0
      (NodeService.aggregateByName
        (npmRes.results.map (fun r => r.package.name)) store) h0 d hd
    refine ⟨hres, ?_⟩
    rw [hres]
    exact NodeService.depsResultsMapLookup_isSome _ _

/-- Witness for C4: one upstream lodash result against a store holding a
lodash record on node1. -/
theorem getRepoList_success_order_witness :
    ∃ deps, (NodeService.getRepoList "lodash" ⟨1, 20⟩
        (fun _ => .ok ⟨1, [⟨⟨"lodash", "4.17.21"⟩⟩]⟩)
        [⟨"node1", "lodash", "node", "4.17.20"⟩]).1 =
      .successList deps 1 ∧
    deps.map (fun d => d.name) = ["lodash"] ∧
    deps.map (fun d => d.latestVersion) = ["4.17.21"] ∧
    (∀ d ∈ deps,
      d.result = NodeService.depsResultsMapLookup
        (NodeService.aggregateByName ["lodash"]
          [⟨"node1", "lodash", "node", "4.17.20"⟩]) d.name ∧
      (d.result.isSome ↔ ∃ e ∈ NodeService.aggregateByName ["lodash"]
          [⟨"node1", "lodash", "node", "4.17.20"⟩], e.name = d.name)) :=
  getRepoList_success_order "lodash" ⟨1, 20⟩
    (fun _ => .ok ⟨1, [⟨⟨"lodash", "4.17.21"⟩⟩]⟩)
    [⟨"node1", "lodash", "node", "4.17.20"⟩]
    ⟨1, [⟨⟨"lodash", "4.17.21"⟩⟩]⟩
    (by decide) rfl (by decide)

/-- C5: the inventory scan invokes the manager as
`cmd list -g --json --depth 0`, depends on the runner only through that
one invocation, and fails as a whole on a non-zero exit or on output the
JSON decoder rejects. -/
theorem getDependencies_spec (run : String → List String → NodeService.ExecResult)
    (decodeList : String → Option NodeService.NpmListResult) (cmdPath : String) :
    NodeService.listArgs = ["list", "-g", "--json", "--depth", "0"] ∧
    (∀ run2, run2 cmdPath NodeService.listArgs = run cmdPath NodeService.listArgs →
      NodeService.getDependencies run2 decodeList cmdPath =
        NodeService.getDependencies run decodeList cmdPath) ∧
    (∀ m, run cmdPath NodeService.listArgs = .err m →
      NodeService.getDependencies run decodeList cmdPath = .error m) ∧
    (∀ data, run cmdPath NodeService.listArgs = .ok data → decodeList data = none →
      NodeService.getDependencies run decodeList cmdPath =
        .error "json unmarshal failure") := by
  refine ⟨rfl, ?_, ?_, ?_⟩
  · intro run2 h
    unfold NodeService.getDependencies
    rw [h]
  · intro m h
    unfold NodeService.getDependencies
    rw [h]
  · intro data h hd
    simp [NodeService.getDependencies, h, hd]

/-- Witness for C5: a runner reporting a non-zero exit fails the call. -/
theorem getDependencies_spec_witness :
    NodeService.getDependencies (fun _ _ => .err "exit status 1")
      (fun _ => none) "npm" = .error "exit status 1" :=
  (getDependencies_spec (fun _ _ => .err "exit status 1")
    (fun _ => none) "npm").2.2.1 "exit status 1" rfl
